import Mathlib

/-!
Verification of the VRL standard-library conversion pair `to_entries` /
`from_entries` (src/src/stdlib/to_entries.rs, src/src/stdlib/from_entries.rs).

The runtime `Value` model, the `ObjectMap` (a `BTreeMap<KeyString, Value>`)
and its typed accessors `try_object` / `try_array` live in the repository
outside the given source fragment; they are modelled here from the spec
(sections 2, 3 and 7): a closed tagged union, a mapping with unique keys,
deterministic iteration order and last-write-wins insertion, and accessors
failing with "expected <kind>, got <kind>" messages.

Byte strings and object keys are modelled as `List Nat` (byte values).
`ObjectMap` is modelled as an association list whose keys are strictly
increasing in lexicographic byte order, matching a `BTreeMap`'s iteration
order; `omInsert` is the ordered insert with overwrite, `omRemove` the
ordered removal.
-/

namespace VRL

/-- Modelled from the spec: the runtime Value model, "a closed, tagged union
of runtime values including at minimum Null, Boolean, Byte-string, Array
(ordered sequence of Value), and Object (mapping from string key to Value)".
An integer variant is included since the source tests use integer values.
Objects carry their entries in the map's iteration order. -/
inductive Value : Type
  | null : Value
  | boolean : Bool → Value
  | bytes : List Nat → Value
  | integer : Int → Value
  | array : List Value → Value
  | object : List (List Nat × Value) → Value

/-- An `ObjectMap` as iterated: a list of key/value pairs. -/
abbrev ObjectMap := List (List Nat × Value)

/-- Modelled from the spec: the kind name of each Value variant, as used in
the "expected <expected-kind>, got <actual-kind>" error messages. The names
for boolean, array and object are fixed by the source tests. -/
def kindStr : Value → String
  | .null => "null"
  | .boolean _ => "boolean"
  | .bytes _ => "string"
  | .integer _ => "integer"
  | .array _ => "array"
  | .object _ => "object"

/-- Is the value an Array variant? -/
def isArrayV : Value → Bool
  | .array _ => true
  | _ => false

/-- Is the value an Object variant? -/
def isObjectV : Value → Bool
  | .object _ => true
  | _ => false

/-- Is the value a ByteString variant? -/
def isBytesV : Value → Bool
  | .bytes _ => true
  | _ => false

/-- Modelled from the spec: the typed accessor `Value::try_object`, failing
with a ShapeMismatch message when the variant is not Object. -/
def try_object : Value → Except String ObjectMap
  | .object entries => .ok entries
  | v => .error ("expected object, got " ++ kindStr v)

/-- Modelled from the spec: the typed accessor `Value::try_array`, failing
with a ShapeMismatch message when the variant is not Array. -/
def try_array : Value → Except String (List Value)
  | .array elements => .ok elements
  | v => .error ("expected array, got " ++ kindStr v)

/-- Strict lexicographic order on byte strings, the `BTreeMap` key order. -/
def bytesLt : List Nat → List Nat → Bool
  | [], [] => false
  | [], _ :: _ => true
  | _ :: _, [] => false
  | a :: as, b :: bs => if a < b then true else if a == b then bytesLt as bs else false

/-- Modelled from the spec: `ObjectMap` insertion, "inserting an existing key
overwrites it (last write wins)"; keeps the key-sorted iteration order of the
underlying ordered map. -/
def omInsert (key : List Nat) (v : Value) : ObjectMap → ObjectMap
  | [] => [(key, v)]
  | (k2, v2) :: rest =>
    if bytesLt key k2 then (key, v) :: (k2, v2) :: rest
    else if key == k2 then (key, v) :: rest
    else (k2, v2) :: omInsert key v rest

/-- Modelled from the spec: `ObjectMap` removal, returning the removed value
(if the key was present) and the remaining map. -/
def omRemove (key : List Nat) : ObjectMap → Option Value × ObjectMap
  | [] => (none, [])
  | (k2, v2) :: rest =>
    if key == k2 then (some v2, rest)
    else
      let r := omRemove key rest
      (r.1, (k2, v2) :: r.2)

/-- Map lookup on the association-list model. -/
def omLookup (key : List Nat) : ObjectMap → Option Value
  | [] => none
  | (k2, v2) :: rest => if k2 == key then some v2 else omLookup key rest

/-- The UTF-8 bytes of the field name "key". -/
def keyField : List Nat := [107, 101, 121]

/-- The UTF-8 bytes of the field name "value". -/
def valueField : List Nat := [118, 97, 108, 117, 101]

/-- The UTF-8 encoding of U+FFFD REPLACEMENT CHARACTER. -/
def replacementChar : List Nat := [0xEF, 0xBF, 0xBD]

/-- Is `b` a UTF-8 continuation byte? -/
def isCont (b : Nat) : Bool := decide (0x80 ≤ b ∧ b ≤ 0xBF)

/-- Valid range of the second byte of a three-byte UTF-8 sequence with lead
byte `b` (excluding overlong encodings and surrogates, as Rust does). -/
def cont2OK3 (b b2 : Nat) : Bool :=
  if b == 0xE0 then decide (0xA0 ≤ b2 ∧ b2 ≤ 0xBF)
  else if b == 0xED then decide (0x80 ≤ b2 ∧ b2 ≤ 0x9F)
  else isCont b2

/-- Valid range of the second byte of a four-byte UTF-8 sequence with lead
byte `b` (excluding overlong encodings and values above U+10FFFF). -/
def cont2OK4 (b b2 : Nat) : Bool :=
  if b == 0xF0 then decide (0x90 ≤ b2 ∧ b2 ≤ 0xBF)
  else if b == 0xF4 then decide (0x80 ≤ b2 ∧ b2 ≤ 0x8F)
  else isCont b2

/-- Recursion core of `utf8Lossy`. Every step consumes at least one byte of
the list, so running it with fuel equal to the list's length computes the
full decoding; the fuel only makes the recursion structural. -/
def utf8LossyGo : Nat → List Nat → List Nat
  | 0, _ => []
  | _, [] => []
  | fuel + 1, b :: t =>
    if b < 0x80 then b :: utf8LossyGo fuel t
    else if 0xC2 ≤ b ∧ b ≤ 0xDF then
      match t with
      | [] => replacementChar
      | b2 :: t2 =>
        if isCont b2 then b :: b2 :: utf8LossyGo fuel t2
        else replacementChar ++ utf8LossyGo fuel t
    else if 0xE0 ≤ b ∧ b ≤ 0xEF then
      match t with
      | [] => replacementChar
      | b2 :: t2 =>
        if cont2OK3 b b2 then
          match t2 with
          | [] => replacementChar
          | b3 :: t3 =>
            if isCont b3 then b :: b2 :: b3 :: utf8LossyGo fuel t3
            else replacementChar ++ utf8LossyGo fuel t2
        else replacementChar ++ utf8LossyGo fuel t
    else if 0xF0 ≤ b ∧ b ≤ 0xF4 then
      match t with
      | [] => replacementChar
      | b2 :: t2 =>
        if cont2OK4 b b2 then
          match t2 with
          | [] => replacementChar
          | b3 :: t3 =>
            if isCont b3 then
              match t3 with
              | [] => replacementChar
              | b4 :: t4 =>
                if isCont b4 then b :: b2 :: b3 :: b4 :: utf8LossyGo fuel t4
                else replacementChar ++ utf8LossyGo fuel t3
            else replacementChar ++ utf8LossyGo fuel t2
        else replacementChar ++ utf8LossyGo fuel t
    else replacementChar ++ utf8LossyGo fuel t

/-- `String::from_utf8_lossy` on the byte-list model: valid UTF-8 sequences
pass through unchanged, each maximal invalid subpart is replaced by the
UTF-8 bytes of U+FFFD (Rust's "substitution of maximal subparts"). -/
def utf8Lossy (l : List Nat) : List Nat := utf8LossyGo l.length l

/-- `make_key_string` from src/src/stdlib/from_entries.rs: a Bytes value is
converted with `String::from_utf8_lossy`; every other variant fails with
"object keys must be strings". -/
def make_key_string : Value → Except String (List Nat)
  | .bytes key => .ok (utf8Lossy key)
  | _ => .error "object keys must be strings"

/-- The loop body of `from_entries` (src/src/stdlib/from_entries.rs lines
18-24): each element must be an object; fields "key" and "value" are removed
(defaulting to Null), the key is converted, and the pair inserted. -/
def fromEntriesLoop : List Value → ObjectMap → Except String ObjectMap
  | [], obj => .ok obj
  | entry :: rest, obj =>
    match try_object entry with
    | .error e => .error e
    | .ok em =>
      let r1 := omRemove keyField em
      let r2 := omRemove valueField r1.2
      match make_key_string (r1.1.getD Value.null) with
      | .error e => .error e
      | .ok key => fromEntriesLoop rest (omInsert key (r2.1.getD Value.null) obj)

/-- `from_entries` from src/src/stdlib/from_entries.rs lines 14-27. -/
def from_entries (value : Value) : Except String Value :=
  match try_array value with
  | .error e => .error e
  | .ok arr =>
    match fromEntriesLoop arr [] with
    | .error e => .error e
    | .ok obj => .ok (Value.object obj)

/-- `build_entry` from src/src/stdlib/to_entries.rs lines 12-15:
`ObjectMap::from([("key", key), ("value", value)])`; in the ordered map
"key" precedes "value". -/
def build_entry (kv : List Nat × Value) : Value :=
  Value.object [(keyField, Value.bytes kv.1), (valueField, kv.2)]

/-- `to_entries` from src/src/stdlib/to_entries.rs lines 17-20. -/
def to_entries (value : Value) : Except String Value :=
  match try_object value with
  | .error e => .error e
  | .ok obj => .ok (Value.array (obj.map build_entry))

/-- A well-formed `ObjectMap` as a `BTreeMap` iterates it: every key is
strictly below all later keys in the map's key order. -/
def sortedKeys : ObjectMap → Bool
  | [] => true
  | kv :: rest => rest.all (fun kv2 => bytesLt kv.1 kv2.1) && sortedKeys rest

/-- The UTF-8 bytes of "foo". -/
def fooBytes : List Nat := [102, 111, 111]

/-- The UTF-8 bytes of "bar". -/
def barBytes : List Nat := [98, 97, 114]

/-- Unfolding of `from_entries` on an Array argument. -/
theorem from_entries_array (l : List Value) :
    from_entries (Value.array l) =
      match fromEntriesLoop l [] with
      | .error e => .error e
      | .ok obj => .ok (Value.object obj) := rfl

/-- Unfolding of `to_entries` on an Object argument. -/
theorem to_entries_object (m : ObjectMap) :
    to_entries (Value.object m) = .ok (Value.array (m.map build_entry)) := rfl

/-- One step of the `from_entries` loop on an Object element, written through
the field removals. -/
theorem fromEntriesLoop_cons_object (em : ObjectMap) (rest : List Value) (obj : ObjectMap) :
    fromEntriesLoop (Value.object em :: rest) obj =
      match make_key_string ((omRemove keyField em).1.getD Value.null) with
      | .error e => .error e
      | .ok key =>
          fromEntriesLoop rest
            (omInsert key ((omRemove valueField (omRemove keyField em).2).1.getD Value.null) obj) :=
  rfl

/-- One step of the `from_entries` loop on a well-formed entry record. -/
theorem fromEntriesLoop_build_entry (k : List Nat) (v : Value) (rest : List Value)
    (obj : ObjectMap) :
    fromEntriesLoop (build_entry (k, v) :: rest) obj =
      fromEntriesLoop rest (omInsert (utf8Lossy k) v obj) := by
  rw [show build_entry (k, v) = Value.object [(keyField, Value.bytes k), (valueField, v)] from rfl,
    fromEntriesLoop_cons_object]
  simp [omRemove, make_key_string]

theorem bytesLt_irrefl (a : List Nat) : bytesLt a a = false := by
  induction a with
  | nil => rfl
  | cons x xs ih => simp [bytesLt, ih]

theorem bytesLt_asymm (a b : List Nat) (h : bytesLt a b = true) : bytesLt b a = false := by
  induction a generalizing b with
  | nil => cases b <;> rfl
  | cons x xs ih =>
    cases b with
    | nil => simp [bytesLt] at h
    | cons y ys =>
      simp only [bytesLt] at h ⊢
      by_cases h1 : x < y
      · have h2 : ¬ y < x := by omega
        have h3 : (y == x) = false := by simp; omega
        simp [h2, h3]
      · by_cases h2 : x = y
        · subst h2
          simp [h1] at h
          simp [h1, ih _ h]
        · simp [h1, h2] at h

theorem omInsert_append (k : List Nat) (v : Value) (acc : ObjectMap)
    (h : ∀ p ∈ acc, bytesLt p.1 k = true) :
    omInsert k v acc = acc ++ [(k, v)] := by
  induction acc with
  | nil => rfl
  | cons p rest ih =>
    obtain ⟨k2, v2⟩ := p
    have h1 : bytesLt k2 k = true := h (k2, v2) (by simp)
    have h2 : bytesLt k k2 = false := bytesLt_asymm _ _ h1
    have h3 : (k == k2) = false := by
      rw [beq_eq_false_iff_ne]
      intro he
      subst he
      simp [bytesLt_irrefl] at h1
    simp only [omInsert, h2, h3, if_false, Bool.false_eq_true]
    rw [ih (fun p hp => h p (by simp [hp]))]
    simp

/-- Accumulator form of the round trip: mapping a strictly sorted object
with UTF-8-clean keys through `build_entry` and running the `from_entries`
loop appends the object to the accumulator unchanged. -/
theorem fromEntriesLoop_roundtrip (m : ObjectMap) (acc : ObjectMap)
    (hs : sortedKeys m = true)
    (hv : ∀ p ∈ m, utf8Lossy p.1 = p.1)
    (ha : ∀ p ∈ acc, ∀ q ∈ m, bytesLt p.1 q.1 = true) :
    fromEntriesLoop (m.map build_entry) acc = .ok (acc ++ m) := by
  induction m generalizing acc with
  | nil => simp [fromEntriesLoop]
  | cons p rest ih =>
    obtain ⟨k, v⟩ := p
    simp only [List.map_cons]
    rw [fromEntriesLoop_build_entry, hv (k, v) (by simp),
      omInsert_append k v acc (fun q hq => ha q hq (k, v) (by simp))]
    simp only [sortedKeys, Bool.and_eq_true, List.all_eq_true] at hs
    have hv2 : ∀ p ∈ rest, utf8Lossy p.1 = p.1 := fun p hp => hv p (List.mem_cons_of_mem _ hp)
    have ha2 : ∀ p ∈ acc ++ [(k, v)], ∀ q ∈ rest, bytesLt p.1 q.1 = true := by
      intro p hp q hq
      rcases List.mem_append.mp hp with hmem | hmem
      · exact ha p hmem q (List.mem_cons_of_mem _ hq)
      · simp at hmem
        subst hmem
        exact hs.1 q hq
    rw [ih (acc ++ [(k, v)]) hs.2 hv2 ha2]
    simp

/-- The value of the last entry with key `k`, in array order: the spec's
"last occurrence in array order wins". -/
def lastVal (k : List Nat) : List (List Nat × Value) → Option Value
  | [] => none
  | p :: rest =>
    match lastVal k rest with
    | some v => some v
    | none => if p.1 == k then some p.2 else none

theorem omLookup_omInsert_self (k : List Nat) (v : Value) (m : ObjectMap) :
    omLookup k (omInsert k v m) = some v := by
  induction m with
  | nil => simp [omInsert, omLookup]
  | cons p rest ih =>
    obtain ⟨k2, v2⟩ := p
    simp only [omInsert]
    by_cases h1 : bytesLt k k2 = true
    · simp [h1, omLookup]
    · by_cases h2 : k = k2
      · subst h2
        simp [h1, omLookup]
      · have h3 : (k == k2) = false := by simp [h2]
        have h4 : (k2 == k) = false := by simp [Ne.symm h2]
        simp [h1, h3, omLookup, h4, ih]

theorem omLookup_omInsert_ne (k k2 : List Nat) (v : Value) (m : ObjectMap)
    (h : k2 ≠ k) :
    omLookup k (omInsert k2 v m) = omLookup k m := by
  have hne : (k2 == k) = false := by simp [h]
  induction m with
  | nil => simp [omInsert, omLookup, hne]
  | cons p rest ih =>
    obtain ⟨k3, v3⟩ := p
    simp only [omInsert]
    by_cases h1 : bytesLt k2 k3 = true
    · simp [h1, omLookup, hne]
    · by_cases h2 : k2 = k3
      · subst h2
        have h3 : (k2 == k) = false := by simp [h]
        simp [h1, omLookup, h3, hne]
      · have h3 : (k2 == k3) = false := by simp [h2]
        simp [h1, h3, omLookup, ih]

/-- Accumulator form of last-wins: running the `from_entries` loop over
well-formed entry records never fails, and each key ends up mapped to the
last value given for it, falling back to the starting object. -/
theorem fromEntriesLoop_lastVal (ps : List (List Nat × Value)) (obj : ObjectMap)
    (hv : ∀ p ∈ ps, utf8Lossy p.1 = p.1) :
    ∃ res, fromEntriesLoop (ps.map build_entry) obj = .ok res ∧
      ∀ k, omLookup k res = (lastVal k ps).or (omLookup k obj) := by
  induction ps generalizing obj with
  | nil => exact ⟨obj, rfl, by simp [lastVal]⟩
  | cons p rest ih =>
    obtain ⟨k0, v0⟩ := p
    rw [List.map_cons, fromEntriesLoop_build_entry, hv (k0, v0) (by simp)]
    obtain ⟨res, hres, hlook⟩ :=
      ih (omInsert k0 v0 obj) (fun q hq => hv q (List.mem_cons_of_mem _ hq))
    refine ⟨res, hres, fun k => ?_⟩
    rw [hlook k]
    cases hl : lastVal k rest with
    | some v => simp [lastVal, hl]
    | none =>
      by_cases hk : k0 = k
      · subst hk
        simp [lastVal, hl, omLookup_omInsert_self]
      · have hk2 : (k0 == k) = false := by simp [hk]
        simp [lastVal, hl, omLookup_omInsert_ne k k0 v0 obj hk, hk2]

/-- When the first element that is not a well-formed entry record is a
non-Object, the `from_entries` loop fails with that element's shape
mismatch, whatever was accumulated before it. -/
theorem fromEntriesLoop_shape_error (ps : List (List Nat × Value)) (v : Value)
    (rest : List Value) (h : isObjectV v = false) (obj : ObjectMap) :
    fromEntriesLoop (ps.map build_entry ++ v :: rest) obj =
      .error ("expected object, got " ++ kindStr v) := by
  induction ps generalizing obj with
  | nil =>
    simp only [List.map_nil, List.nil_append]
    cases v with
    | object em => simp [isObjectV] at h
    | null => rfl
    | boolean b => rfl
    | bytes bs => rfl
    | integer n => rfl
    | array elements => rfl
  | cons p ps ih =>
    obtain ⟨k0, v0⟩ := p
    rw [List.map_cons, List.cons_append, fromEntriesLoop_build_entry]
    exact ih _

/-- Entry records exactly as the spec describes the output of `to_entries`:
one record `{ key: ByteString(key), value: value }` per key/value pair of
the input, in the map's iteration order. -/
def specEntries (m : ObjectMap) : List Value :=
  m.map (fun kv => Value.object [(keyField, Value.bytes kv.1), (valueField, kv.2)])

/-- C1: for every well-formed Object `O` with distinct keys (its entries
strictly sorted in the map's key order, keys valid UTF-8 so the lossy key
conversion is the identity), `from_entries (to_entries O) = O`: the round
trip drops and renames nothing. -/
theorem c1_roundtrip (m : ObjectMap)
    (hs : sortedKeys m = true)
    (hv : ∀ p ∈ m, utf8Lossy p.1 = p.1) :
    (to_entries (Value.object m)).bind from_entries = Except.ok (Value.object m) := by
  have h := fromEntriesLoop_roundtrip m [] hs hv (by simp)
  rw [to_entries_object]
  show from_entries (Value.array (m.map build_entry)) = Except.ok (Value.object m)
  rw [from_entries_array, h]
  simp

/-- Witness for C1 at the two-key object mapping "bar" to true and "foo"
to the integer 1. -/
theorem c1_roundtrip_witness :
    (to_entries (Value.object [(barBytes, Value.boolean true), (fooBytes, Value.integer 1)])).bind
        from_entries =
      Except.ok (Value.object [(barBytes, Value.boolean true), (fooBytes, Value.integer 1)]) :=
  c1_roundtrip [(barBytes, Value.boolean true), (fooBytes, Value.integer 1)]
    (by decide) (by decide)

/-- C2: on every Object input, `to_entries` succeeds with the Array holding,
in the map's iteration order, exactly one entry record per key/value pair,
the output length equals the input's key count, and the empty object maps
to the empty array. -/
theorem c2_to_entries_shape (m : ObjectMap) :
    to_entries (Value.object m) = .ok (Value.array (specEntries m)) ∧
      (specEntries m).length = m.length ∧
      to_entries (Value.object []) = .ok (Value.array []) := by
  refine ⟨rfl, ?_, rfl⟩
  simp [specEntries]

/-- C3: `from_entries []` is the empty object, `to_entries {}` the empty
array, and a single well-formed entry rebuilds the singleton object. -/
theorem c3_base_cases :
    from_entries (Value.array []) = .ok (Value.object []) ∧
      to_entries (Value.object []) = .ok (Value.array []) ∧
      from_entries (Value.array
          [Value.object [(keyField, Value.bytes fooBytes), (valueField, Value.bytes barBytes)]]) =
        .ok (Value.object [(fooBytes, Value.bytes barBytes)]) :=
  ⟨rfl, rfl, rfl⟩

/-- C4: an entry object with a ByteString "key" field but no "value" field
yields Null for the missing value. -/
theorem c4_missing_value_null (em : ObjectMap) (k : List Nat)
    (hk : (omRemove keyField em).1 = some (Value.bytes k))
    (hv : (omRemove valueField (omRemove keyField em).2).1 = none) :
    from_entries (Value.array [Value.object em]) =
      .ok (Value.object [(utf8Lossy k, Value.null)]) := by
  rw [from_entries_array, fromEntriesLoop_cons_object, hk, hv]
  simp [make_key_string, fromEntriesLoop, omInsert]

/-- Witness for C4: `from_entries [{ key: "foo" }] = { foo: null }`. -/
theorem c4_missing_value_null_witness :
    from_entries (Value.array [Value.object [(keyField, Value.bytes fooBytes)]]) =
      .ok (Value.object [(fooBytes, Value.null)]) := by
  rw [c4_missing_value_null [(keyField, Value.bytes fooBytes)] fooBytes rfl rfl]
  rfl

/-- C5: an entries array of well-formed entry records never fails on
duplicate keys, and the output object maps each key to the value of the
last entry carrying it, in array order. -/
theorem c5_last_wins (ps : List (List Nat × Value))
    (hv : ∀ p ∈ ps, utf8Lossy p.1 = p.1) :
    ∃ obj, from_entries (Value.array (ps.map build_entry)) = .ok (Value.object obj) ∧
      ∀ k, omLookup k obj = lastVal k ps := by
  obtain ⟨res, hres, hlook⟩ := fromEntriesLoop_lastVal ps [] hv
  refine ⟨res, ?_, fun k => ?_⟩
  · rw [from_entries_array, hres]
  · rw [hlook k]
    simp [omLookup]

/-- Witness for C5 at `[{key:"a",value:1},{key:"a",value:2}]`. -/
theorem c5_last_wins_witness :
    ∃ obj, from_entries (Value.array
        ([([97], Value.integer 1), ([97], Value.integer 2)].map build_entry)) =
        .ok (Value.object obj) ∧
      ∀ k, omLookup k obj = lastVal k [([97], Value.integer 1), ([97], Value.integer 2)] :=
  c5_last_wins [([97], Value.integer 1), ([97], Value.integer 2)] (by decide)

/-- C6: a top-level argument of the wrong variant fails with the
ShapeMismatch message naming the expected and the actual kind:
`from_entries` expects an array, `to_entries` an object. -/
theorem c6_top_level_shape_mismatch (v : Value) :
    (isArrayV v = false → from_entries v = .error ("expected array, got " ++ kindStr v)) ∧
      (isObjectV v = false → to_entries v = .error ("expected object, got " ++ kindStr v)) := by
  constructor
  · intro h
    cases v with
    | array elements => simp [isArrayV] at h
    | null => rfl
    | boolean b => rfl
    | bytes bs => rfl
    | integer n => rfl
    | object entries => rfl
  · intro h
    cases v with
    | object entries => simp [isObjectV] at h
    | null => rfl
    | boolean b => rfl
    | bytes bs => rfl
    | integer n => rfl
    | array elements => rfl

/-- Witness for C6 at the Boolean `true`. -/
theorem c6_top_level_shape_mismatch_witness :
    from_entries (Value.boolean true) = .error "expected array, got boolean" ∧
      to_entries (Value.boolean true) = .error "expected object, got boolean" :=
  ⟨(c6_top_level_shape_mismatch (Value.boolean true)).1 rfl,
    (c6_top_level_shape_mismatch (Value.boolean true)).2 rfl⟩

/-- C7 counterexample: the array `[{key: 1}, true]` contains an element
(`true`) that is not an Object, yet `from_entries` fails with the key-type
error of the earlier entry, not with "expected object, got boolean": the
claim's unrestricted quantification over arrays containing a non-Object
element does not hold. -/
theorem c7_counterexample :
    from_entries (Value.array [Value.object [(keyField, Value.integer 1)], Value.boolean true]) =
        .error "object keys must be strings" ∧
      "object keys must be strings" ≠ "expected object, got boolean" :=
  ⟨rfl, by decide⟩

/-- C7 amended: when the first offending element of the array is a
non-Object — every element before it being a well-formed entry record —
`from_entries` fails with the element-level ShapeMismatch naming "object"
and that element's actual variant. -/
theorem c7_element_shape_mismatch (ps : List (List Nat × Value)) (v : Value)
    (rest : List Value) (h : isObjectV v = false) :
    from_entries (Value.array (ps.map build_entry ++ v :: rest)) =
      .error ("expected object, got " ++ kindStr v) := by
  rw [from_entries_array, fromEntriesLoop_shape_error ps v rest h]

/-- Witness for C7 amended: `from_entries [true]` fails with
"expected object, got boolean". -/
theorem c7_element_shape_mismatch_witness :
    from_entries (Value.array [Value.boolean true]) = .error "expected object, got boolean" :=
  c7_element_shape_mismatch [] (Value.boolean true) [] rfl

/-- C8: an entry whose "key" field (Null when missing) is any variant other
than ByteString makes `from_entries` fail with the fixed message
"object keys must be strings", whatever follows in the array. -/
theorem c8_key_type_error (em : ObjectMap) (rest : List Value)
    (h : isBytesV ((omRemove keyField em).1.getD Value.null) = false) :
    from_entries (Value.array (Value.object em :: rest)) =
      .error "object keys must be strings" := by
  have hm : make_key_string ((omRemove keyField em).1.getD Value.null) =
      .error "object keys must be strings" := by
    cases hk : (omRemove keyField em).1.getD Value.null with
    | bytes bs => rw [hk] at h; simp [isBytesV] at h
    | null => rfl
    | boolean b => rfl
    | integer n => rfl
    | array elements => rfl
    | object entries => rfl
  rw [from_entries_array, fromEntriesLoop_cons_object, hm]

/-- Witness for C8: `from_entries [{ key: 1, value: "bar" }]` fails with
"object keys must be strings". -/
theorem c8_key_type_error_witness :
    from_entries (Value.array
        [Value.object [(keyField, Value.integer 1), (valueField, Value.bytes barBytes)]]) =
      .error "object keys must be strings" :=
  c8_key_type_error [(keyField, Value.integer 1), (valueField, Value.bytes barBytes)] []
    (by decide)

/-- C9: an entry carrying fields beyond "key" and "value" (with a ByteString
"key") is accepted, and only its key/value pair reaches the output: the
extra fields are silently discarded. -/
theorem c9_extra_fields_ignored (em : ObjectMap) (k : List Nat)
    (hk : (omRemove keyField em).1 = some (Value.bytes k)) :
    from_entries (Value.array [Value.object em]) =
      .ok (Value.object
        [(utf8Lossy k, (omRemove valueField (omRemove keyField em).2).1.getD Value.null)]) := by
  rw [from_entries_array, fromEntriesLoop_cons_object, hk]
  simp [make_key_string, fromEntriesLoop, omInsert]

/-- Witness for C9 at `[{ key: "foo", value: "bar", x: 7 }]`: the extra
field "x" is dropped and the result is `{ foo: "bar" }`. -/
theorem c9_extra_fields_ignored_witness :
    from_entries (Value.array
        [Value.object [(keyField, Value.bytes fooBytes), (valueField, Value.bytes barBytes),
          ([120], Value.integer 7)]]) =
      .ok (Value.object [(fooBytes, Value.bytes barBytes)]) := by
  rw [c9_extra_fields_ignored
    [(keyField, Value.bytes fooBytes), (valueField, Value.bytes barBytes),
      ([120], Value.integer 7)] fooBytes rfl]
  rfl

/-- C10: `make_key_string` never fails on a ByteString (the error branch is
unreachable for the Bytes variant); invalid UTF-8 is converted lossily, so
the byte 0xFF becomes U+FFFD and the resulting object key's bytes differ
from the input key's bytes. -/
theorem c10_lossy_keys :
    (∀ bs : List Nat, ∃ s, make_key_string (Value.bytes bs) = .ok s) ∧
      make_key_string (Value.bytes [255]) = .ok replacementChar ∧
      replacementChar ≠ [255] ∧
      from_entries (Value.array [build_entry ([255], Value.null)]) =
        .ok (Value.object [(replacementChar, Value.null)]) :=
  ⟨fun bs => ⟨utf8Lossy bs, rfl⟩, rfl, by decide, rfl⟩

end VRL
